import Mathlib

/-!
Verification of the post-haste actor/mailbox messaging runtime against its
natural-language specification.  The core data types and operations are
embedded shallowly: the error taxonomy and its conversions come from
`src/error.rs`; the traffic-lights example agents come from
`examples/traffic-lights/*` and `examples/tinyc6/*`; the routing/mailbox
core (mailbox table, registration, router, delayed-delivery scheduler) is
not present in the source tree, so it is modelled from the specification
text and each such definition is marked `Modelled from the spec`.
-/

namespace PostHaste

/-- The library error enumeration, from `src/error.rs` (`pub enum PostmasterError`). -/
inductive PostmasterError where
  | AddressAlreadyTaken
  | NoRecipient
  | Timeout
  | TryLockFailed
  | TrySendFailed
  | DelayedMessageTaskSpawnFailed
deriving DecidableEq, Repr

/-- Embedding of `embassy_time::TimeoutError`, a fieldless struct. -/
inductive TimeoutError where
  | mk
deriving DecidableEq

/-- Embedding of `embassy_sync::mutex::TryLockError`, a fieldless struct. -/
inductive TryLockError where
  | mk
deriving DecidableEq

/-- Embedding of `embassy_sync::channel::TrySendError<T>`: the failed send
returns the rejected payload (`Full(T)`). -/
inductive TrySendError (T : Type) where
  | Full (payload : T)

/-- Embedding of `embassy_executor::SpawnError` (`Busy`). -/
inductive SpawnError where
  | Busy
deriving DecidableEq

/-- `impl From<TimeoutError> for PostmasterError` in `src/error.rs`. -/
def fromTimeoutError : TimeoutError → PostmasterError :=
  fun _ => .Timeout

/-- `impl From<TryLockError> for PostmasterError` in `src/error.rs`. -/
def fromTryLockError : TryLockError → PostmasterError :=
  fun _ => .TryLockFailed

/-- `impl<T> From<TrySendError<T>> for PostmasterError` in `src/error.rs`. -/
def fromTrySendError {T : Type} : TrySendError T → PostmasterError :=
  fun _ => .TrySendFailed

/-- `impl From<SpawnError> for PostmasterError` in `src/error.rs`. -/
def fromSpawnError : SpawnError → PostmasterError :=
  fun _ => .DelayedMessageTaskSpawnFailed

end PostHaste

/-- Crossterm/rtt text styling applied by the examples (color only; `black`
is used for an unlit lamp). -/
inductive Style where
  | plain
  | redStyle
  | yellowStyle
  | greenStyle
  | blackStyle
deriving DecidableEq

/-- A styled fragment of one printed terminal line. -/
structure StyledText where
  text : String
  style : Style
deriving DecidableEq

/-- Observable effects an agent's loop body performs, over a deployment's
address type `A` and payload type `P`: terminal output, timer waits,
immediate sends (`postmaster::send`) and delayed sends
(`postmaster::message(..).with_delay(d).send()`). -/
inductive Effect (A P : Type) where
  | consoleClear
  | consoleLine (parts : List StyledText)
  | rprintLine (s : String)
  | timerWaitSecs (secs : Nat)
  | sendMsg (dest : A) (source : A) (payload : P)
  | delayedMsg (dest : A) (source : A) (payload : P) (delaySecs : Nat)
deriving DecidableEq

/-- An unstyled `println!` line. -/
def plainLine {A P : Type} (s : String) : Effect A P :=
  .consoleLine [⟨s, .plain⟩]

namespace TrafficLightsExample

/-- The sequencer state machine's states, from
`examples/traffic-lights/sequencer.rs` (`enum SequencerState`). -/
inductive SequencerState where
  | Green
  | GreenCrossPending
  | GreenToRed
  | RedCrossPending
  | RedCrossing
  | RedCrossEnding
  | RedToGreen
  | RedToGreenCrossPending
deriving DecidableEq

/-- Messages accepted by the sequencer agent, from
`examples/traffic-lights/sequencer.rs` (`enum SequencerMessage`). -/
inductive SequencerMessage where
  | Begin
  | ButtonPress
  | InternalMessage
deriving DecidableEq

/-- Messages accepted by the display agent, from
`examples/traffic-lights/display.rs` (`enum DisplayMessage`). -/
inductive DisplayMessage where
  | SetSequenceState (sequence_state : SequencerState)
  | DebugMessage (text : String)
deriving DecidableEq

/-- The deployment's payload union, from `examples/traffic-lights/main.rs`
(`enum Payloads`). -/
inductive Payloads where
  | Display (m : DisplayMessage)
  | Sequencer (m : SequencerMessage)
deriving DecidableEq

/-- The deployment's closed address set, from `examples/traffic-lights/main.rs`
(`enum Addresses`). -/
inductive Addresses where
  | Main
  | DisplayAgent
  | SequencerAgent
  | ButtonTask
deriving DecidableEq

/-- A routed message: source address plus payload (destination is implicit in
which mailbox it is enqueued into). -/
structure Message where
  source : Addresses
  payload : Payloads
deriving DecidableEq

/- Constants from `examples/traffic-lights/consts.rs`; durations are whole
seconds (`Duration::from_secs`). -/

def AMBER_TO_GREEN_DELAY : Nat := 2

def GREEN_TO_AMBER_DELAY : Nat := 2

def AMBER_TO_RED_DELAY : Nat := 2

def CROSSING_START_DELAY : Nat := 3

def CROSSING_LENGTH : Nat := 3

def CROSSING_END_DELAY : Nat := 2

/-- The maximum number of debug messages for the display agent,
from `examples/traffic-lights/consts.rs`. -/
def MAXIMUM_DEBUG_MESSAGES : Nat := 10

/-- Rust `Debug` rendering of a `SequencerState` value. -/
def dbgSequencerState : SequencerState → String
  | .Green => "Green"
  | .GreenCrossPending => "GreenCrossPending"
  | .GreenToRed => "GreenToRed"
  | .RedCrossPending => "RedCrossPending"
  | .RedCrossing => "RedCrossing"
  | .RedCrossEnding => "RedCrossEnding"
  | .RedToGreen => "RedToGreen"
  | .RedToGreenCrossPending => "RedToGreenCrossPending"

/-- Rust `Debug` rendering of a `SequencerMessage` value. -/
def dbgSequencerMessage : SequencerMessage → String
  | .Begin => "Begin"
  | .ButtonPress => "ButtonPress"
  | .InternalMessage => "InternalMessage"

/-- Rust `Debug` rendering of a `DisplayMessage` value. -/
def dbgDisplayMessage : DisplayMessage → String
  | .SetSequenceState s =>
      "SetSequenceState \x7b sequence_state: " ++ dbgSequencerState s ++ " \x7d"
  | .DebugMessage t => "DebugMessage(\"" ++ t ++ "\")"

/-- Rust `Debug` rendering of a `Payloads` value. -/
def dbgPayloads : Payloads → String
  | .Display m => "Display(" ++ dbgDisplayMessage m ++ ")"
  | .Sequencer m => "Sequencer(" ++ dbgSequencerMessage m ++ ")"

/-- The traffic-lights deployment's effect alphabet. -/
abbrev TLEffect := Effect Addresses Payloads

namespace Display

/-- `LightState` from the `hardware` module of
`examples/traffic-lights/display.rs`. -/
inductive LightState where
  | Off
  | On
deriving DecidableEq

/-- `TrafficLights` from the `hardware` module of
`examples/traffic-lights/display.rs`: one state per lamp. -/
structure TrafficLights where
  red : LightState
  amber : LightState
  green : LightState
deriving DecidableEq

/-- `impl From<SequencerState> for TrafficLights` in
`examples/traffic-lights/display.rs`. -/
def TrafficLights.fromSequencerState : SequencerState → TrafficLights
  | .Green | .GreenCrossPending => ⟨.Off, .Off, .On⟩
  | .GreenToRed => ⟨.Off, .On, .Off⟩
  | .RedCrossPending | .RedCrossing | .RedCrossEnding => ⟨.On, .Off, .Off⟩
  | .RedToGreen | .RedToGreenCrossPending => ⟨.On, .On, .Off⟩

/-- `impl Default for TrafficLights`: the `RedCrossEnding` rendering. -/
def TrafficLights.default : TrafficLights :=
  TrafficLights.fromSequencerState .RedCrossEnding

/-- `PedestrianLights` from the `hardware` module of
`examples/traffic-lights/display.rs`. -/
structure PedestrianLights where
  stop : LightState
  cross : LightState
deriving DecidableEq

/-- `impl From<SequencerState> for PedestrianLights` in
`examples/traffic-lights/display.rs`. -/
def PedestrianLights.fromSequencerState : SequencerState → PedestrianLights
  | .Green | .GreenCrossPending | .GreenToRed | .RedCrossPending
  | .RedCrossEnding | .RedToGreen | .RedToGreenCrossPending => ⟨.On, .Off⟩
  | .RedCrossing => ⟨.Off, .On⟩

/-- `impl Default for PedestrianLights`: the `RedCrossEnding` rendering. -/
def PedestrianLights.default : PedestrianLights :=
  PedestrianLights.fromSequencerState .RedCrossEnding

/-- `ButtonLight` from the `hardware` module of
`examples/traffic-lights/display.rs`. -/
structure ButtonLight where
  button_light : LightState
deriving DecidableEq

/-- `impl From<SequencerState> for ButtonLight` in
`examples/traffic-lights/display.rs`. -/
def ButtonLight.fromSequencerState : SequencerState → ButtonLight
  | .RedToGreenCrossPending | .GreenCrossPending | .GreenToRed
  | .RedCrossPending => ⟨.On⟩
  | .Green | .RedCrossing | .RedCrossEnding | .RedToGreen => ⟨.Off⟩

/-- `impl Default for ButtonLight`: the `RedCrossEnding` rendering. -/
def ButtonLight.default : ButtonLight :=
  ButtonLight.fromSequencerState .RedCrossEnding

/-- The `DisplayAgent` struct of `examples/traffic-lights/display.rs`
(the `standard_out` OS handle is omitted from the model). -/
structure DisplayAgentState where
  traffic_light_state : TrafficLights
  pedestrian_light_state : PedestrianLights
  button_state : ButtonLight
  debug_messages : List String
deriving DecidableEq

/-- `DisplayAgent::create`: default lamp states and one empty debug line. -/
def DisplayAgentState.create : DisplayAgentState :=
  ⟨TrafficLights.default, PedestrianLights.default, ButtonLight.default, [""]⟩

/-- The `while self.debug_messages.len() >= MAXIMUM_DEBUG_MESSAGES
\x7b self.debug_messages.remove(0); \x7d` loop of
`DisplayAgent::message_handler`. -/
def trimDebugMessages (msgs : List String) : List String :=
  if _h : msgs.length ≥ MAXIMUM_DEBUG_MESSAGES then
    trimDebugMessages msgs.tail
  else
    msgs
termination_by msgs.length
decreasing_by
  simp only [List.length_tail]
  have hM : MAXIMUM_DEBUG_MESSAGES = 10 := rfl
  omega

/-- `DisplayAgent::display_ascii`: the sequence of terminal writes (a clear,
the stored debug messages, then the ascii-art frame). -/
def displayAscii (st : DisplayAgentState) : List TLEffect :=
  let red_char : StyledText :=
    if st.traffic_light_state.red = .On then ⟨"██", .redStyle⟩ else ⟨"██", .blackStyle⟩
  let amber_char : StyledText :=
    if st.traffic_light_state.amber = .On then ⟨"██", .yellowStyle⟩ else ⟨"██", .blackStyle⟩
  let green_char : StyledText :=
    if st.traffic_light_state.green = .On then ⟨"██", .greenStyle⟩ else ⟨"██", .blackStyle⟩
  let stop_chars : StyledText :=
    if st.pedestrian_light_state.stop = .On then ⟨"STOP ", .redStyle⟩ else ⟨"     ", .redStyle⟩
  let cross_chars : StyledText :=
    if st.pedestrian_light_state.cross = .On then ⟨"CROSS", .greenStyle⟩ else ⟨"     ", .greenStyle⟩
  let button_light_chars : StyledText :=
    if st.button_state.button_light = .On then ⟨"██", .redStyle⟩ else ⟨"  ", .redStyle⟩
  [Effect.consoleClear] ++
  st.debug_messages.map plainLine ++
  [ plainLine "",
    plainLine "----",
    .consoleLine [⟨"|", .plain⟩, red_char, ⟨"|   -------", .plain⟩],
    .consoleLine [⟨"----   |", .plain⟩, stop_chars, ⟨"|", .plain⟩],
    .consoleLine [⟨"|", .plain⟩, amber_char, ⟨"|   |", .plain⟩, cross_chars, ⟨"|", .plain⟩],
    plainLine "----   -------",
    .consoleLine [⟨"|", .plain⟩, green_char, ⟨"|", .plain⟩],
    .consoleLine [⟨"----   |", .plain⟩, button_light_chars, ⟨"|", .plain⟩] ]

/-- `DisplayAgent::message_handler`.  `now` stands for the
`Local::now().format("%H:%M:%S")` timestamp read from the wall clock. -/
def DisplayAgentState.message_handler (st : DisplayAgentState) (now : String)
    (lights_message : DisplayMessage) : DisplayAgentState × List TLEffect :=
  let st' :=
    match lights_message with
    | .SetSequenceState sequence_state =>
        { st with
          traffic_light_state := TrafficLights.fromSequencerState sequence_state,
          pedestrian_light_state := PedestrianLights.fromSequencerState sequence_state,
          button_state := ButtonLight.fromSequencerState sequence_state }
    | .DebugMessage debug_message =>
        { st with
          debug_messages :=
            trimDebugMessages st.debug_messages ++ [now ++ " " ++ debug_message] }
  (st', displayAscii st')

/-- One iteration of `DisplayAgent::run`: `if let Some(message) =
inbox.recv().await` — an empty receive result is skipped, a `Display` payload
goes to `message_handler`, and any other payload is reported as unsupported. -/
def displayRunStep (st : DisplayAgentState) (now : String)
    (received : Option Message) : DisplayAgentState × List TLEffect :=
  match received with
  | none => (st, [])
  | some message =>
    match message.payload with
    | .Display lights_message => st.message_handler now lights_message
    | p => (st, [plainLine ("DisplayAgent received unsupported message " ++ dbgPayloads p)])

end Display

namespace Sequencer

/-- The `SequencerAgent` struct of `examples/traffic-lights/sequencer.rs`. -/
structure SequencerAgentState where
  address : Addresses
  state : SequencerState
deriving DecidableEq

/-- `SequencerAgent::create`: starts in `RedCrossEnding`. -/
def SequencerAgentState.create (address : Addresses) : SequencerAgentState :=
  ⟨address, .RedCrossEnding⟩

/-- The panic message of Rust's `unreachable!()` macro. -/
def unreachableMsg : String := "internal error: entered unreachable code"

/-- The panic message of `Option::unwrap` on `None`. -/
def unwrapNoneMsg : String := "called `Option::unwrap()` on a `None` value"

/-- `SequencerAgent::send_current_state_to_lights_agent`: one send of the
current state to the display agent. -/
def SequencerAgentState.send_current_state_to_lights_agent
    (ag : SequencerAgentState) : TLEffect :=
  .sendMsg .DisplayAgent ag.address
    (.Display (.SetSequenceState ag.state))

/-- `SequencerAgent::schedule_next_state`: a delayed internal message to
itself whose delay depends on the current state (`unreachable!()` in
`Green`), followed by a debug message to the display agent. -/
def SequencerAgentState.schedule_next_state
    (ag : SequencerAgentState) : Except String (List TLEffect) := do
  let delay ←
    match ag.state with
    | .Green => Except.error unreachableMsg
    | .GreenCrossPending => pure GREEN_TO_AMBER_DELAY
    | .GreenToRed => pure AMBER_TO_RED_DELAY
    | .RedCrossPending => pure CROSSING_START_DELAY
    | .RedCrossing => pure CROSSING_LENGTH
    | .RedCrossEnding => pure CROSSING_END_DELAY
    | .RedToGreen | .RedToGreenCrossPending => pure AMBER_TO_GREEN_DELAY
  pure
    [ .delayedMsg ag.address ag.address (.Sequencer .InternalMessage) delay,
      .sendMsg .DisplayAgent .SequencerAgent
        (.Display (.DebugMessage
          "Sequencer agent sent a delayed internal message to itself")) ]

/-- `SequencerAgent::set_next_state`: advance the state machine
(`unreachable!()` in `Green`; `RedToGreen → Green` is the one transition that
schedules no delayed message), then update the display and send a debug
message. -/
def SequencerAgentState.set_next_state
    (ag : SequencerAgentState) : Except String (SequencerAgentState × List TLEffect) := do
  let (st', doSchedule) ←
    match ag.state with
    | .Green => Except.error unreachableMsg
    | .GreenCrossPending => pure (SequencerState.GreenToRed, true)
    | .GreenToRed => pure (SequencerState.RedCrossPending, true)
    | .RedCrossPending => pure (SequencerState.RedCrossing, true)
    | .RedCrossing => pure (SequencerState.RedCrossEnding, true)
    | .RedCrossEnding => pure (SequencerState.RedToGreen, true)
    | .RedToGreen => pure (SequencerState.Green, false)
    | .RedToGreenCrossPending => pure (SequencerState.GreenCrossPending, true)
  let ag' : SequencerAgentState := { ag with state := st' }
  let schedEffs ← if doSchedule then ag'.schedule_next_state else pure []
  pure (ag',
    schedEffs ++
    [ ag'.send_current_state_to_lights_agent,
      .sendMsg .DisplayAgent .SequencerAgent
        (.Display (.DebugMessage
          ("Sequencer updated it's state to " ++ dbgSequencerState ag'.state))) ])

/-- `SequencerAgent::handle_internal_message`: advance the state, then
update the display once more. -/
def SequencerAgentState.handle_internal_message
    (ag : SequencerAgentState) : Except String (SequencerAgentState × List TLEffect) := do
  let (ag', effs) ← ag.set_next_state
  pure (ag', effs ++ [ag'.send_current_state_to_lights_agent])

/-- `SequencerAgent::handle_button_press`: in `Green` start the crossing
sequence, in `RedToGreen` switch to `RedToGreenCrossPending` without
scheduling, and in every other state ignore the press (debug message only). -/
def SequencerAgentState.handle_button_press
    (ag : SequencerAgentState) : Except String (SequencerAgentState × List TLEffect) :=
  match ag.state with
  | .Green => do
      let ag' : SequencerAgentState := { ag with state := .GreenCrossPending }
      let schedEffs ← ag'.schedule_next_state
      pure (ag', [ag'.send_current_state_to_lights_agent] ++ schedEffs)
  | .GreenCrossPending | .GreenToRed | .RedCrossPending
  | .RedCrossing | .RedCrossEnding | .RedToGreenCrossPending =>
      pure (ag,
        [ .sendMsg .DisplayAgent .SequencerAgent
            (.Display (.DebugMessage "Sequencer ignored the button press")) ])
  | .RedToGreen =>
      let ag' : SequencerAgentState := { ag with state := .RedToGreenCrossPending }
      pure (ag', [ag'.send_current_state_to_lights_agent])

/-- `SequencerAgent::begin`: update the display, schedule the first delayed
internal message, and send a debug notice. -/
def SequencerAgentState.begin
    (ag : SequencerAgentState) : Except String (SequencerAgentState × List TLEffect) := do
  let schedEffs ← ag.schedule_next_state
  pure (ag,
    [ag.send_current_state_to_lights_agent] ++ schedEffs ++
    [ .sendMsg .DisplayAgent .SequencerAgent
        (.Display (.DebugMessage
          "Sequencer received message to begin sequencing")) ])

/-- `SequencerAgent::handle_message`: dispatch on the message kind. -/
def SequencerAgentState.handle_message (ag : SequencerAgentState)
    (message : SequencerMessage) : Except String (SequencerAgentState × List TLEffect) :=
  match message with
  | .Begin => ag.begin
  | .InternalMessage => ag.handle_internal_message
  | .ButtonPress => ag.handle_button_press

/-- One iteration of `SequencerAgent::run`:
`let received_message = inbox.recv().await.unwrap();` — an empty receive
result panics (`unwrap` on `None`); a `Sequencer` payload is handled; any
other payload is reported as unsupported and the loop continues. -/
def sequencerRunStep (ag : SequencerAgentState)
    (received : Option Message) : Except String (SequencerAgentState × List TLEffect) :=
  match received with
  | none => Except.error unwrapNoneMsg
  | some received_message =>
    match received_message.payload with
    | .Sequencer message => ag.handle_message message
    | p =>
        Except.ok (ag,
          [plainLine ("SequencerAgent received unsupported message " ++ dbgPayloads p)])

end Sequencer

end TrafficLightsExample

namespace Tinyc6

/-- The tinyc6 deployment's payload union, from `examples/tinyc6/src/lib.rs`. -/
inductive Payloads where
  | Hello
deriving DecidableEq

/-- The tinyc6 deployment's address set, from `examples/tinyc6/src/lib.rs`. -/
inductive Address where
  | PoliteAgentA
  | PoliteAgentB
deriving DecidableEq

/-- A routed message of the tinyc6 deployment. -/
structure Message where
  source : Address
  payload : Payloads
deriving DecidableEq

/-- Rust `Debug` rendering of an `Address` value. -/
def dbgAddress : Address → String
  | .PoliteAgentA => "PoliteAgentA"
  | .PoliteAgentB => "PoliteAgentB"

/-- The `PoliteAgent` struct of `examples/tinyc6/src/polite_agent.rs`. -/
structure PoliteAgentState where
  address : Address
deriving DecidableEq

/-- `PoliteAgent::handle_hello`: print a greeting over rtt, wait one second,
then send `Hello` back to the source. -/
def PoliteAgentState.handle_hello (ag : PoliteAgentState)
    (source : Address) : List (Effect Address Payloads) :=
  [ .rprintLine (dbgAddress ag.address ++ " got hello from " ++ dbgAddress source ++ "!"),
    .timerWaitSecs 1,
    .sendMsg source ag.address .Hello ]

/-- One iteration of `PoliteAgent::run`: `inbox.receive().await` yields a
`Message` directly — this inbox API has no empty result, so the step
function's domain is `Message`, not `Option Message`. -/
def politeRunStep (ag : PoliteAgentState)
    (received_message : Message) : List (Effect Address Payloads) :=
  match received_message.payload with
  | .Hello => ag.handle_hello received_message.source

end Tinyc6

namespace LightsExample

/- Types for the lights/sequencer variant of the example:
`examples/traffic-lights/lights.rs` together with
`examples/test/sequencer.rs` (the only files of that crate under src/). -/

/-- `TrafficSequenceState` from `examples/test/sequencer.rs`. -/
inductive TrafficSequenceState where
  | Red
  | RedToGreen
  | Green
  | GreenToRed
deriving DecidableEq

/-- `PedestrianCrossingSequenceState` from `examples/test/sequencer.rs`. -/
inductive PedestrianCrossingSequenceState where
  | Stop
  | CrossPending
  | Cross
  | CrossEnding
deriving DecidableEq

/-- `LightsMessage` from `examples/traffic-lights/lights.rs`. -/
inductive LightsMessage where
  | SetTrafficLightState (s : TrafficSequenceState)
  | SetPedestrianLightState (s : PedestrianCrossingSequenceState)
  | SetButtonLightState (cross_pending : Bool)
  | Display
  | AddMessage (text : String)
deriving DecidableEq

/-- `InternalMessage` from `examples/test/sequencer.rs`. -/
structure InternalMessage where
  traffic_light_state : TrafficSequenceState
  pedestrian_light_state : Option PedestrianCrossingSequenceState
deriving DecidableEq

/-- `SequencerMessage` from `examples/test/sequencer.rs`. -/
inductive SequencerMessage where
  | Begin
  | ButtonPress
  | InternalMessage (m : InternalMessage)
deriving DecidableEq

/-- Modelled from the spec: the payload tagged union of this crate ("a
tagged union over a closed set of variants"); the crate root declaring it is
not under src/, so its variants are taken from the two call sites
`Payloads::Lights(..)` in lights.rs and `Payloads::SequencerMessage(..)` in
the sequencer. -/
inductive Payloads where
  | Lights (m : LightsMessage)
  | SequencerMessage (m : SequencerMessage)
deriving DecidableEq

namespace Hardware

/-- `TrafficLights` from the `hardware` module of
`examples/traffic-lights/lights.rs` (plain booleans per lamp). -/
structure TrafficLights where
  red : Bool
  amber : Bool
  green : Bool
deriving DecidableEq

/-- `impl From<TrafficSequenceState> for TrafficLights` in
`examples/traffic-lights/lights.rs`. -/
def TrafficLights.fromTrafficSequenceState : TrafficSequenceState → TrafficLights
  | .Red => ⟨true, false, false⟩
  | .RedToGreen => ⟨true, true, false⟩
  | .Green => ⟨false, false, true⟩
  | .GreenToRed => ⟨false, true, false⟩

/-- `impl Default for TrafficLights`: the `Red` rendering. -/
def TrafficLights.default : TrafficLights :=
  TrafficLights.fromTrafficSequenceState .Red

/-- `PedestrianLights` from the `hardware` module of
`examples/traffic-lights/lights.rs`. -/
structure PedestrianLights where
  stop : Bool
  cross : Bool
deriving DecidableEq

/-- `impl From<PedestrianCrossingSequenceState> for PedestrianLights` in
`examples/traffic-lights/lights.rs`. -/
def PedestrianLights.fromSequenceState :
    PedestrianCrossingSequenceState → PedestrianLights
  | .Cross => ⟨false, true⟩
  | .Stop | .CrossEnding | .CrossPending => ⟨true, false⟩

/-- `impl Default for PedestrianLights`: the `Stop` rendering. -/
def PedestrianLights.default : PedestrianLights :=
  PedestrianLights.fromSequenceState .Stop

end Hardware

/-- The `LightsAgent` struct of `examples/traffic-lights/lights.rs`
(the `standard_out` OS handle is omitted from the model). -/
structure LightsAgentState where
  traffic_light_state : Hardware.TrafficLights
  pedestrian_light_state : Hardware.PedestrianLights
  cross_pending : Bool
  messages : List String
deriving DecidableEq

/-- `LightsAgent::create`: default lamp states, no cross pending, one empty
message line. -/
def LightsAgentState.create : LightsAgentState :=
  ⟨Hardware.TrafficLights.default, Hardware.PedestrianLights.default, false, [""]⟩

/-- The `while self.messages.len() >= MAX_MESSAGES \x7b
self.messages.remove(0); \x7d` loop of `LightsAgent::message_handler`;
`maxMessages` stands for `crate::consts::MAX_MESSAGES`, whose defining
module is not under src/.  `Vec::remove(0)` on an empty vector panics, which
the model surfaces as an `Except.error`. -/
def trimMessages (maxMessages : Nat) : List String → Except String (List String)
  | [] =>
      if ([] : List String).length ≥ maxMessages then
        Except.error "removal index (is 0) should be < len (is 0)"
      else
        Except.ok []
  | msg :: rest =>
      if (msg :: rest).length ≥ maxMessages then
        trimMessages maxMessages rest
      else
        Except.ok (msg :: rest)

/-- `LightsAgent::display_ascii`: the sequence of terminal writes (a clear,
the stored messages, then the ascii-art frame).  The agent performs no sends,
so the effect list is polymorphic in the crate's address type `A` (whose
declaring crate root is not under src/). -/
def lightsDisplayAscii {A : Type} (st : LightsAgentState) : List (Effect A Payloads) :=
  let red_char : StyledText :=
    if st.traffic_light_state.red then ⟨"██", .redStyle⟩ else ⟨"██", .blackStyle⟩
  let amber_char : StyledText :=
    if st.traffic_light_state.amber then ⟨"██", .yellowStyle⟩ else ⟨"██", .blackStyle⟩
  let green_char : StyledText :=
    if st.traffic_light_state.green then ⟨"██", .greenStyle⟩ else ⟨"██", .blackStyle⟩
  let stop_chars : StyledText :=
    if st.pedestrian_light_state.stop then ⟨"STOP ", .redStyle⟩ else ⟨"     ", .redStyle⟩
  let cross_chars : StyledText :=
    if st.pedestrian_light_state.cross then ⟨"CROSS", .greenStyle⟩ else ⟨"     ", .greenStyle⟩
  let button_light_chars : StyledText :=
    if st.cross_pending then ⟨"██", .redStyle⟩ else ⟨"  ", .redStyle⟩
  [Effect.consoleClear] ++
  st.messages.map plainLine ++
  [ plainLine "",
    plainLine "----",
    .consoleLine [⟨"|", .plain⟩, red_char, ⟨"|   -------", .plain⟩],
    .consoleLine [⟨"----   |", .plain⟩, stop_chars, ⟨"|", .plain⟩],
    .consoleLine [⟨"|", .plain⟩, amber_char, ⟨"|   |", .plain⟩, cross_chars, ⟨"|", .plain⟩],
    plainLine "----   -------",
    .consoleLine [⟨"|", .plain⟩, green_char, ⟨"|", .plain⟩],
    .consoleLine [⟨"----   |", .plain⟩, button_light_chars, ⟨"|", .plain⟩] ]

/-- `LightsAgent::message_handler`: `if let Payloads::Lights(m) = message`
handles the five `LightsMessage` variants and then refreshes the display;
any payload that is not `Payloads::Lights(..)` falls through the `if let`
with no state change and no output at all. -/
def LightsAgentState.message_handler {A : Type} (st : LightsAgentState)
    (maxMessages : Nat) (message : Payloads) :
    Except String (LightsAgentState × List (Effect A Payloads)) := do
  match message with
  | .Lights lights_message =>
      let st' ←
        match lights_message with
        | .SetTrafficLightState s =>
            pure { st with
              traffic_light_state := Hardware.TrafficLights.fromTrafficSequenceState s }
        | .SetPedestrianLightState s =>
            pure { st with
              pedestrian_light_state := Hardware.PedestrianLights.fromSequenceState s }
        | .SetButtonLightState cross_pending =>
            pure { st with cross_pending := cross_pending }
        | .Display => pure st
        | .AddMessage text => do
            let trimmed ← trimMessages maxMessages st.messages
            pure { st with messages := trimmed ++ [text] }
      pure (st', lightsDisplayAscii st')
  | _ => pure (st, [])

end LightsExample

namespace Core

/- The routing/mailbox core of the library (mailbox table, registration,
router, delayed-delivery scheduler) is not under src/ — only its error type,
examples and callers are — so this section models it from the specification
text (spec sections 3, 4.1-4.4 and 5). -/

/-- Modelled from the spec: a message is conceptually a source address plus a
payload; the destination is implicit in which mailbox it is enqueued into
(spec section 3, "Message").  `A` is the closed address set, `P` the payload
union. -/
structure Msg (A P : Type) where
  source : A
  payload : P
deriving DecidableEq

/-- Modelled from the spec: a mailbox is a bounded FIFO queue of messages for
exactly one address (spec section 3, "Mailbox"); the list front is the oldest
entry, enqueues go to the back.  The capacity bound `K` appears in the
operations. -/
abbrev Mailbox (A P : Type) := List (Msg A P)

/-- Modelled from the spec: `try_send(destination, source, payload)` never
suspends; it fails immediately with `TrySendFailed` if the mailbox is full,
performing no partial enqueue, and otherwise enqueues at the back (spec
section 4.3).  Returns the call's result together with the destination
mailbox's contents after the call. -/
def try_send {A P : Type} (K : Nat) (q : Mailbox A P) (source : A) (payload : P) :
    Except PostHaste.PostmasterError Unit × Mailbox A P :=
  if q.length < K then
    (Except.ok (), q ++ [⟨source, payload⟩])
  else
    (Except.error .TrySendFailed, q)

/-- Modelled from the spec: blocking `send` enqueues the payload in FIFO
position, suspending the caller when the destination mailbox is at capacity
(spec section 4.3).  `send_immediate` is the non-suspending outcome: it
returns `none` exactly when the call would have to suspend. -/
def send_immediate {A P : Type} (K : Nat) (q : Mailbox A P) (source : A) (payload : P) :
    Option (Mailbox A P) :=
  if q.length < K then some (q ++ [⟨source, payload⟩]) else none

/-- Modelled from the spec: a finite sequence of `send` calls issued by one
task with no suspension point between them — every enqueue must be admitted
immediately, otherwise the sequence has a suspension and the run is rejected
(`none`). -/
def sendSeq {A P : Type} (K : Nat) (q : Mailbox A P) : List (Msg A P) → Option (Mailbox A P)
  | [] => some q
  | m :: ms =>
    match send_immediate K q m.source m.payload with
    | none => none
    | some q' => sendSeq K q' ms

/-- Modelled from the spec: `receive()` suspends until a payload is
available and resumes with ownership of the oldest enqueued message (FIFO,
spec section 4.2); on an empty mailbox there is nothing to return yet. -/
def receive {A P : Type} (q : Mailbox A P) : Option (Msg A P × Mailbox A P) :=
  match q with
  | [] => none
  | m :: rest => some (m, rest)

/-- Modelled from the spec: the sequence of messages that successive
`receive()` calls on the mailbox return, oldest first. -/
def receiveAll {A P : Type} (q : Mailbox A P) : List (Msg A P) :=
  match h : receive q with
  | none => []
  | some (m, q') => m :: receiveAll q'
termination_by q.length
decreasing_by
  cases q with
  | nil => simp [receive] at h
  | cons a rest =>
      simp [receive] at h
      obtain ⟨-, h2⟩ := h
      subst h2
      simp

/-- Modelled from the spec: the registration table binds each address to at
most one live agent task (spec section 3, "Registration record"); `register`
fails with `AddressAlreadyTaken` if the address already has a live
registration, leaving every existing binding — hence the first
registration's exclusive ownership of the mailbox's consumer end — intact,
and otherwise records the new binding (spec section 4.2).  `Task` abstracts
the spawned task's identity; the orthogonal task-pool-exhaustion failure of
`register` is not modelled here.  Returns the call's result together with
the table after the call. -/
def register {A Task : Type} [DecidableEq A] (table : A → Option Task)
    (address : A) (task : Task) :
    Except PostHaste.PostmasterError Unit × (A → Option Task) :=
  match table address with
  | some _ => (Except.error .AddressAlreadyTaken, table)
  | none => (Except.ok (), fun x => if x = address then some task else table x)

/-- Modelled from the spec: one in-flight delayed-delivery timer task,
carrying its descriptor and the absolute time at which its timer fires
(schedule time plus delay, spec section 4.4). -/
structure DelayedTask (A P : Type) where
  fireAt : Nat
  dest : A
  source : A
  payload : P
deriving DecidableEq

/-- Modelled from the spec: the delayed-delivery scheduler's world — the
current time, the bounded task pool's free slots, the in-flight timer
tasks, and the deliveries (destination/message pairs) the fired tasks have
enqueued so far, in arrival order (spec sections 4.4 and 5). -/
structure SchedulerState (A P : Type) where
  now : Nat
  freeSlots : Nat
  pending : List (DelayedTask A P)
  delivered : List (A × Msg A P)
deriving DecidableEq

/-- Modelled from the spec: `message(dest, src, payload).with_delay(D).send()`
spawns one ephemeral, detached timer task capturing the descriptor, to fire
after duration `D`; if the bounded task pool has no free slot the call fails
synchronously with `DelayedMessageTaskSpawnFailed` and nothing is scheduled
(spec section 4.4).  Returns the call's result together with the scheduler
state after the call. -/
def scheduleDelayed {A P : Type} (s : SchedulerState A P)
    (dest source : A) (payload : P) (delay : Nat) :
    Except PostHaste.PostmasterError Unit × SchedulerState A P :=
  if s.freeSlots = 0 then
    (Except.error .DelayedMessageTaskSpawnFailed, s)
  else
    (Except.ok (),
      { s with
        freeSlots := s.freeSlots - 1,
        pending := s.pending ++ [⟨s.now + delay, dest, source, payload⟩] })

/-- Modelled from the spec: one time unit elapsing.  Every pending timer
task whose deadline has been reached wakes, performs its single send
(enqueueing its message at its destination), terminates and releases its
task-pool slot (spec section 4.4; destination-mailbox backpressure on the
inner send is not modelled — the fired send is admitted at fire time). -/
def tick {A P : Type} (s : SchedulerState A P) : SchedulerState A P :=
  let t := s.now + 1
  let fired := s.pending.filter (fun task => decide (task.fireAt ≤ t))
  { now := t,
    freeSlots := s.freeSlots + fired.length,
    pending := s.pending.filter (fun task => !decide (task.fireAt ≤ t)),
    delivered := s.delivered ++ fired.map (fun task => (task.dest, ⟨task.source, task.payload⟩)) }

/-- Modelled from the spec: `n` time units elapsing, one tick at a time. -/
def ticks {A P : Type} : Nat → SchedulerState A P → SchedulerState A P
  | 0, s => s
  | n + 1, s => ticks n (tick s)

end Core

/-! ### Helper lemmas about the modelled core -/

/-- Successive receives drain the mailbox front-to-back: the receive trace
of a mailbox is exactly its contents, oldest first. -/
theorem Core.receiveAll_eq_self {A P : Type} (q : Core.Mailbox A P) :
    Core.receiveAll q = q := by
  induction q with
  | nil =>
      rw [Core.receiveAll]
      split
      · rfl
      · rename_i m q' h; simp [Core.receive] at h
  | cons a rest ih =>
      rw [Core.receiveAll]
      split
      · rename_i h; simp [Core.receive] at h
      · rename_i m q' h
        simp [Core.receive] at h
        obtain ⟨h1, h2⟩ := h
        subst h1; subst h2
        rw [ih]

/-- A burst of sends that fits into the remaining capacity is admitted
without suspension and lands at the back of the queue in issue order. -/
theorem Core.sendSeq_eq_append {A P : Type} (K : Nat) :
    ∀ (ms : List (Core.Msg A P)) (q : Core.Mailbox A P),
      q.length + ms.length ≤ K → Core.sendSeq K q ms = some (q ++ ms) := by
  intro ms
  induction ms with
  | nil => intro q h; simp [Core.sendSeq]
  | cons m ms ih =>
      intro q h
      have hlt : q.length < K := by
        simp only [List.length_cons] at h
        omega
      rw [Core.sendSeq, Core.send_immediate]
      simp only [if_pos hlt]
      have := ih (q ++ [m]) (by simp at h ⊢; omega)
      rw [this]
      simp

/-- Claim C1: for a fixed source and destination, a finite burst of sends
issued with no suspension point between them (all admitted immediately) is
returned by the destination's successive `receive()` calls in exactly the
issue order: the receive trace restricted to that source extends the old
per-source backlog by the issued payloads, in order. -/
theorem claim_C1_fifo_per_pair {A P : Type} [DecidableEq A] (K : Nat)
    (q : Core.Mailbox A P) (ms : List (Core.Msg A P)) (src : A)
    (hsrc : ∀ m ∈ ms, m.source = src)
    (hroom : q.length + ms.length ≤ K) :
    ∃ q', Core.sendSeq K q ms = some q' ∧
      Core.receiveAll q' = q ++ ms ∧
      (Core.receiveAll q').filter (fun m => decide (m.source = src)) =
        q.filter (fun m => decide (m.source = src)) ++ ms := by
  refine ⟨q ++ ms, Core.sendSeq_eq_append K ms q hroom, Core.receiveAll_eq_self _, ?_⟩
  rw [Core.receiveAll_eq_self, List.filter_append]
  congr 1
  rw [List.filter_eq_self]
  intro m hm
  simp [hsrc m hm]

/-- Witness for C1: capacity 3, a backlog message from source 1, then two
back-to-back sends from source 0. -/
theorem claim_C1_fifo_per_pair_witness :
    ((∀ m ∈ [(⟨0, 5⟩ : Core.Msg Nat Nat), ⟨0, 7⟩], m.source = 0) ∧
      ([(⟨1, 9⟩ : Core.Msg Nat Nat)].length +
        [(⟨0, 5⟩ : Core.Msg Nat Nat), ⟨0, 7⟩].length ≤ 3)) ∧
    (∃ q', Core.sendSeq 3 [(⟨1, 9⟩ : Core.Msg Nat Nat)] [⟨0, 5⟩, ⟨0, 7⟩] = some q' ∧
      Core.receiveAll q' = [(⟨1, 9⟩ : Core.Msg Nat Nat)] ++ [⟨0, 5⟩, ⟨0, 7⟩] ∧
      (Core.receiveAll q').filter (fun m => decide (m.source = 0)) =
        [(⟨1, 9⟩ : Core.Msg Nat Nat)].filter (fun m => decide (m.source = 0)) ++
          [⟨0, 5⟩, ⟨0, 7⟩]) :=
  ⟨⟨by decide, by decide⟩,
    claim_C1_fifo_per_pair 3 [⟨1, 9⟩] [⟨0, 5⟩, ⟨0, 7⟩] 0 (by decide) (by decide)⟩

/-- Claim C2: a second registration of an address that already has a live
registration fails with `AddressAlreadyTaken`, and the first registration's
binding of the address — its exclusive ownership of the mailbox's consumer
end — is exactly what it was before the failed call. -/
theorem claim_C2_register_exclusive {A Task : Type} [DecidableEq A]
    (table : A → Option Task) (a : A) (owner newTask : Task)
    (hlive : table a = some owner) :
    Core.register table a newTask = (Except.error .AddressAlreadyTaken, table) ∧
    (Core.register table a newTask).2 a = some owner := by
  constructor
  · rw [Core.register, hlive]
  · rw [Core.register, hlive]
    exact hlive

/-- Witness for C2: address 0 is owned by task 7; re-registering it with
task 8 fails and leaves task 7 the owner. -/
theorem claim_C2_register_exclusive_witness :
    ((fun x : Nat => if x = 0 then some 7 else none) 0 = some 7) ∧
    (Core.register (fun x : Nat => if x = 0 then some 7 else none) 0 8 =
      (Except.error .AddressAlreadyTaken, fun x : Nat => if x = 0 then some 7 else none) ∧
     (Core.register (fun x : Nat => if x = 0 then some 7 else none) 0 8).2 0 = some 7) :=
  ⟨by decide,
    claim_C2_register_exclusive (fun x : Nat => if x = 0 then some 7 else none) 0 7 8 (by decide)⟩

/-- Claim C3: `try_send` to a mailbox at capacity `K` fails with
`TrySendFailed` without suspending, leaving the mailbox's contents and
enqueued count exactly as they were (no partial enqueue). -/
theorem claim_C3_try_send_full {A P : Type} (K : Nat) (q : Core.Mailbox A P)
    (source : A) (payload : P) (hfull : q.length = K) :
    Core.try_send K q source payload = (Except.error .TrySendFailed, q) ∧
    (Core.try_send K q source payload).2 = q ∧
    (Core.try_send K q source payload).2.length = q.length := by
  have hnlt : ¬ q.length < K := by omega
  refine ⟨?_, ?_, ?_⟩ <;> rw [Core.try_send, if_neg hnlt]

/-- Witness for C3: a capacity-2 mailbox holding two messages rejects a
third. -/
theorem claim_C3_try_send_full_witness :
    ([(⟨0, 1⟩ : Core.Msg Nat Nat), ⟨1, 2⟩].length = 2) ∧
    (Core.try_send 2 [(⟨0, 1⟩ : Core.Msg Nat Nat), ⟨1, 2⟩] 0 3 =
      (Except.error .TrySendFailed, [⟨0, 1⟩, ⟨1, 2⟩]) ∧
     (Core.try_send 2 [(⟨0, 1⟩ : Core.Msg Nat Nat), ⟨1, 2⟩] 0 3).2 = [⟨0, 1⟩, ⟨1, 2⟩] ∧
     (Core.try_send 2 [(⟨0, 1⟩ : Core.Msg Nat Nat), ⟨1, 2⟩] 0 3).2.length =
       [(⟨0, 1⟩ : Core.Msg Nat Nat), ⟨1, 2⟩].length) :=
  ⟨by decide, claim_C3_try_send_full 2 [⟨0, 1⟩, ⟨1, 2⟩] 0 3 (by decide)⟩

/-- Counting an exclusive disjunction of two Boolean predicates splits into
the two counts. -/
theorem countP_or_of_disjoint {α : Type _} (p q : α → Bool) (l : List α)
    (h : ∀ a ∈ l, ¬(p a = true ∧ q a = true)) :
    l.countP (fun a => p a || q a) = l.countP p + l.countP q := by
  induction l with
  | nil => simp
  | cons a l ih =>
      simp only [List.countP_cons]
      rw [ih (fun x hx => h x (List.mem_cons_of_mem a hx))]
      have ha := h a (List.mem_cons_self a l)
      cases hp : p a with
      | false => cases hq : q a <;> simp [hp, hq] <;> omega
      | true =>
          cases hq : q a with
          | false => simp [hp, hq]; omega
          | true => exact absurd ⟨hp, hq⟩ ha

/-- Anything the timer system ever delivers was already delivered or was
carried by some pending timer task. -/
theorem Core.ticks_delivered_mem {A P : Type} :
    ∀ (n : Nat) (s : Core.SchedulerState A P) (d : A × Core.Msg A P),
      d ∈ (Core.ticks n s).delivered →
      d ∈ s.delivered ∨ ∃ task ∈ s.pending, d = (task.dest, ⟨task.source, task.payload⟩) := by
  intro n
  induction n with
  | zero => intro s d hd; exact Or.inl hd
  | succ n ih =>
      intro s d hd
      rcases ih (Core.tick s) d hd with h | ⟨task, htask, rfl⟩
      · simp only [Core.tick, List.mem_append, List.mem_map] at h
        rcases h with h | ⟨task, htask, rfl⟩
        · exact Or.inl h
        · exact Or.inr ⟨task, (List.mem_filter.mp htask).1, rfl⟩
      · simp only [Core.tick] at htask
        exact Or.inr ⟨task, (List.mem_filter.mp htask).1, rfl⟩

/-- The deliveries made within `n` ticks are exactly the prior deliveries
plus the pending timer tasks whose deadline falls within the window — as a
count against any predicate `pm`, provided every pending deadline is still
in the future. -/
theorem Core.ticks_delivered_countP {A P : Type} (pm : A × Core.Msg A P → Bool) :
    ∀ (n : Nat) (s : Core.SchedulerState A P),
      (∀ task ∈ s.pending, s.now < task.fireAt) →
      ((Core.ticks n s).delivered).countP pm =
        s.delivered.countP pm +
        s.pending.countP (fun task =>
          decide (task.fireAt ≤ s.now + n) && pm (task.dest, ⟨task.source, task.payload⟩)) := by
  intro n
  induction n with
  | zero =>
      intro s hf
      have h0 : s.pending.countP (fun task =>
          decide (task.fireAt ≤ s.now + 0) && pm (task.dest, ⟨task.source, task.payload⟩)) = 0 := by
        rw [List.countP_eq_zero]
        intro task htask
        have hfu := hf task htask
        simp only [Bool.and_eq_true, decide_eq_true_eq, not_and]
        intro hle
        omega
      show s.delivered.countP pm = _
      omega
  | succ n ih =>
      intro s hf
      have hf' : ∀ task ∈ (Core.tick s).pending, (Core.tick s).now < task.fireAt := by
        intro task htask
        simp only [Core.tick, List.mem_filter, Bool.not_eq_eq_eq_not, Bool.not_true,
          decide_eq_false_iff_not] at htask
        simp only [Core.tick]
        omega
      have hmain := ih (Core.tick s) hf'
      refine hmain.trans ?_
      simp only [Core.tick]
      rw [List.countP_append, List.countP_map, List.countP_filter, List.countP_filter]
      rw [Nat.add_assoc]
      congr 1
      have hsplit :
          s.pending.countP (fun task =>
            decide (task.fireAt ≤ s.now + (n + 1)) &&
              pm (task.dest, ⟨task.source, task.payload⟩)) =
          s.pending.countP (fun task =>
            ((pm ∘ fun task => (task.dest, ⟨task.source, task.payload⟩)) task &&
              decide (task.fireAt ≤ s.now + 1)) ||
            ((decide (task.fireAt ≤ s.now + 1 + n) &&
              pm (task.dest, ⟨task.source, task.payload⟩)) &&
              !decide (task.fireAt ≤ s.now + 1))) := by
        apply List.countP_congr
        intro task _
        simp only [Function.comp, Bool.and_eq_true, Bool.or_eq_true, decide_eq_true_eq,
          Bool.not_eq_eq_eq_not, Bool.not_true, decide_eq_false_iff_not]
        constructor
        · rintro ⟨hle, hpm⟩
          by_cases h1 : task.fireAt ≤ s.now + 1
          · exact Or.inl ⟨hpm, h1⟩
          · exact Or.inr ⟨⟨by omega, hpm⟩, h1⟩
        · rintro (⟨hpm, h1⟩ | ⟨⟨hle, hpm⟩, h1⟩)
          · exact ⟨by omega, hpm⟩
          · exact ⟨by omega, hpm⟩
      rw [hsplit]
      rw [countP_or_of_disjoint]
      intro task _
      rintro ⟨h1, h2⟩
      simp only [Function.comp, Bool.and_eq_true, Bool.not_eq_eq_eq_not, Bool.not_true,
        decide_eq_false_iff_not, decide_eq_true_eq] at h1 h2
      exact h2.2 h1.2

/-- Claim C4: scheduling a delayed message while the bounded task pool has
no free slot fails synchronously with `DelayedMessageTaskSpawnFailed`,
changes nothing, and — the payload being carried by no mailbox entry and no
pending timer — that payload is never enqueued anywhere, then or later. -/
theorem claim_C4_pool_exhausted {A P : Type} (s : Core.SchedulerState A P)
    (dest source : A) (payload : P) (delay : Nat)
    (hpool : s.freeSlots = 0)
    (hfreshP : ∀ task ∈ s.pending, task.payload ≠ payload)
    (hfreshD : ∀ d ∈ s.delivered, d.2.payload ≠ payload) :
    (Core.scheduleDelayed s dest source payload delay).1 =
      Except.error .DelayedMessageTaskSpawnFailed ∧
    (Core.scheduleDelayed s dest source payload delay).2 = s ∧
    ∀ (n : Nat) (d : A × Core.Msg A P),
      d ∈ (Core.ticks n (Core.scheduleDelayed s dest source payload delay).2).delivered →
      d.2.payload ≠ payload := by
  have hs2 : (Core.scheduleDelayed s dest source payload delay).2 = s := by
    rw [Core.scheduleDelayed, if_pos hpool]
  refine ⟨by rw [Core.scheduleDelayed, if_pos hpool], hs2, ?_⟩
  intro n d hd
  rw [hs2] at hd
  rcases Core.ticks_delivered_mem n s d hd with h | ⟨task, htask, rfl⟩
  · exact hfreshD d h
  · exact hfreshP task htask

/-- Witness for C4: an exhausted pool (no free slots), empty pending set and
empty delivery log; payload 5 is rejected and never delivered. -/
theorem claim_C4_pool_exhausted_witness :
    ((Core.SchedulerState.mk 0 0 [] [] : Core.SchedulerState Nat Nat).freeSlots = 0 ∧
     (∀ task ∈ (Core.SchedulerState.mk 0 0 [] [] : Core.SchedulerState Nat Nat).pending,
        task.payload ≠ 5) ∧
     (∀ d ∈ (Core.SchedulerState.mk 0 0 [] [] : Core.SchedulerState Nat Nat).delivered,
        d.2.payload ≠ 5)) ∧
    ((Core.scheduleDelayed (Core.SchedulerState.mk 0 0 [] []) 1 2 (5 : Nat) 3).1 =
      Except.error .DelayedMessageTaskSpawnFailed ∧
     (Core.scheduleDelayed (Core.SchedulerState.mk 0 0 [] []) 1 2 (5 : Nat) 3).2 =
       Core.SchedulerState.mk 0 0 [] [] ∧
     ∀ (n : Nat) (d : Nat × Core.Msg Nat Nat),
       d ∈ (Core.ticks n
         (Core.scheduleDelayed (Core.SchedulerState.mk 0 0 [] []) 1 2 (5 : Nat) 3).2).delivered →
       d.2.payload ≠ 5) :=
  ⟨⟨rfl, by decide, by decide⟩,
    claim_C4_pool_exhausted (Core.SchedulerState.mk 0 0 [] []) 1 2 5 3 rfl
      (by decide) (by decide)⟩

/-- Claim C5: a successfully scheduled delayed message with delay `D ≥ 1`
(the pool has a free slot, the payload is fresh, and every pending deadline
is in the future) is never enqueued before `D` has elapsed and is enqueued
exactly once from `D` on: after `n` ticks the delivery log holds the payload
`if D ≤ n then 1 else 0` times. -/
theorem claim_C5_delayed_exactly_once {A P : Type} [DecidableEq P]
    (s : Core.SchedulerState A P) (dest source : A) (payload : P) (D : Nat)
    (hpool : s.freeSlots ≠ 0) (hD : 1 ≤ D)
    (hfuture : ∀ task ∈ s.pending, s.now < task.fireAt)
    (hfreshP : ∀ task ∈ s.pending, task.payload ≠ payload)
    (hfreshD : ∀ d ∈ s.delivered, d.2.payload ≠ payload)
    (n : Nat) :
    (Core.scheduleDelayed s dest source payload D).1 = Except.ok () ∧
    ((Core.ticks n (Core.scheduleDelayed s dest source payload D).2).delivered).countP
        (fun d => decide (d.2.payload = payload)) = if D ≤ n then 1 else 0 := by
  have hs2 : (Core.scheduleDelayed s dest source payload D).2 =
      { s with
        freeSlots := s.freeSlots - 1,
        pending := s.pending ++ [⟨s.now + D, dest, source, payload⟩] } := by
    rw [Core.scheduleDelayed, if_neg hpool]
  refine ⟨by rw [Core.scheduleDelayed, if_neg hpool], ?_⟩
  rw [hs2]
  rw [Core.ticks_delivered_countP]
  · have hdel : s.delivered.countP (fun d => decide (d.2.payload = payload)) = 0 := by
      rw [List.countP_eq_zero]
      intro d hd
      simpa using hfreshD d hd
    have hpen : s.pending.countP (fun task =>
        decide (task.fireAt ≤ s.now + n) && decide (task.payload = payload)) = 0 := by
      rw [List.countP_eq_zero]
      intro task htask
      simp only [Bool.and_eq_true, decide_eq_true_eq, not_and]
      intro _
      exact hfreshP task htask
    simp only [List.countP_append, hdel, hpen]
    by_cases hDn : D ≤ n
    · simp only [List.countP_cons, List.countP_nil, if_pos hDn]
      simp
      omega
    · simp only [List.countP_cons, List.countP_nil, if_neg hDn]
      simp
      omega
  · intro task htask
    rcases List.mem_append.mp htask with h | h
    · exact hfuture task h
    · simp only [List.mem_singleton] at h
      subst h
      show s.now < s.now + D
      omega

/-- Witness for C5: one free slot, empty state, delay 2; after 3 ticks the
payload has been delivered exactly once. -/
theorem claim_C5_delayed_exactly_once_witness :
    (((Core.SchedulerState.mk 0 1 [] [] : Core.SchedulerState Nat Nat).freeSlots ≠ 0 ∧
      (1 : Nat) ≤ 2) ∧
     ((∀ task ∈ (Core.SchedulerState.mk 0 1 [] [] : Core.SchedulerState Nat Nat).pending,
         (Core.SchedulerState.mk 0 1 [] [] : Core.SchedulerState Nat Nat).now < task.fireAt) ∧
      (∀ task ∈ (Core.SchedulerState.mk 0 1 [] [] : Core.SchedulerState Nat Nat).pending,
         task.payload ≠ 5) ∧
      (∀ d ∈ (Core.SchedulerState.mk 0 1 [] [] : Core.SchedulerState Nat Nat).delivered,
         d.2.payload ≠ 5))) ∧
    ((Core.scheduleDelayed (Core.SchedulerState.mk 0 1 [] []) 1 2 (5 : Nat) 2).1 =
       Except.ok () ∧
     ((Core.ticks 3
        (Core.scheduleDelayed (Core.SchedulerState.mk 0 1 [] []) 1 2 (5 : Nat) 2).2).delivered).countP
          (fun d => decide (d.2.payload = 5)) = if 2 ≤ 3 then 1 else 0) :=
  ⟨⟨⟨by decide, by decide⟩, ⟨by decide, by decide, by decide⟩⟩,
    claim_C5_delayed_exactly_once (Core.SchedulerState.mk 0 1 [] []) 1 2 5 2
      (by decide) (by decide) (by decide) (by decide) (by decide) 3⟩

/-- Claim C7 counterexample: the claim says every example agent — in
particular `LightsAgent` — emits a diagnostic when it receives a payload
variant it does not handle.  At the concrete input of a freshly created
`LightsAgent` receiving the non-Lights payload
`Payloads::SequencerMessage(Begin)`, the handler returns with an empty
effect list: the payload is discarded silently, with no diagnostic of any
kind, refuting the claim for `LightsAgent`. -/
theorem claim_C7_unsupported_counterexample :
    (LightsExample.LightsAgentState.create.message_handler 10
        (LightsExample.Payloads.SequencerMessage .Begin) :
        Except String (LightsExample.LightsAgentState × List (Effect Unit LightsExample.Payloads))) =
      Except.ok (LightsExample.LightsAgentState.create, []) := rfl

/-- Claim C7 (amended): when an agent's run loop receives a payload variant
it does not handle, `DisplayAgent` and `SequencerAgent` emit an
"unsupported message" diagnostic and continue their loop with state
unchanged; `LightsAgent` also never crashes and continues its loop with
state unchanged, but discards the unsupported variant silently, emitting no
diagnostic. -/
theorem claim_C7_unsupported_amended :
    (∀ (st : TrafficLightsExample.Display.DisplayAgentState) (now : String)
       (src : TrafficLightsExample.Addresses) (sm : TrafficLightsExample.SequencerMessage),
       TrafficLightsExample.Display.displayRunStep st now (some ⟨src, .Sequencer sm⟩) =
         (st, [plainLine ("DisplayAgent received unsupported message " ++
            TrafficLightsExample.dbgPayloads (.Sequencer sm))])) ∧
    (∀ (ag : TrafficLightsExample.Sequencer.SequencerAgentState)
       (src : TrafficLightsExample.Addresses) (dm : TrafficLightsExample.DisplayMessage),
       TrafficLightsExample.Sequencer.sequencerRunStep ag (some ⟨src, .Display dm⟩) =
         Except.ok (ag, [plainLine ("SequencerAgent received unsupported message " ++
            TrafficLightsExample.dbgPayloads (.Display dm))])) ∧
    (∀ (st : LightsExample.LightsAgentState) (maxMessages : Nat)
       (sm : LightsExample.SequencerMessage),
       (st.message_handler maxMessages (.SequencerMessage sm) :
         Except String (LightsExample.LightsAgentState × List (Effect Unit LightsExample.Payloads))) =
         Except.ok (st, [])) :=
  ⟨fun _ _ _ _ => rfl, fun _ _ _ => rfl, fun _ _ _ => rfl⟩

/-- Claim C8: the handling of an empty receive result is not uniform across
the example run loops — on an empty (`None`) result `DisplayAgent`'s loop
skips the iteration and continues with state unchanged and no output, while
`SequencerAgent`'s loop panics (the `unwrap` on `None`); `PoliteAgent`'s
inbox API yields a message directly, so its loop body is defined on
`Message` (a payload is always present) and processes every one.  Hence
there is a receive outcome (`none`) on which one run loop panics and
another proceeds normally. -/
theorem claim_C8_empty_receive_divergence :
    (∀ (st : TrafficLightsExample.Display.DisplayAgentState) (now : String),
       TrafficLightsExample.Display.displayRunStep st now none = (st, [])) ∧
    (∀ ag : TrafficLightsExample.Sequencer.SequencerAgentState,
       TrafficLightsExample.Sequencer.sequencerRunStep ag none =
         Except.error TrafficLightsExample.Sequencer.unwrapNoneMsg) ∧
    (∀ (ag : Tinyc6.PoliteAgentState) (m : Tinyc6.Message),
       Tinyc6.politeRunStep ag m = ag.handle_hello m.source) :=
  ⟨fun _ _ => rfl, fun _ => rfl, fun ag m => by
    cases m with
    | mk src p => cases p; rfl⟩

/-- Claim C9: for every `SequencerState` `s`, the pedestrian lights derived
from `s` show cross On exactly when `s` is `RedCrossing`, and whenever
cross is On the traffic lights derived from `s` have red On, amber Off and
green Off — so no sequencer state renders a display in which pedestrians
may cross while the green or amber traffic light is lit. -/
theorem claim_C9_no_cross_with_green :
    ∀ s : TrafficLightsExample.SequencerState,
      ((TrafficLightsExample.Display.PedestrianLights.fromSequencerState s).cross =
          TrafficLightsExample.Display.LightState.On ↔
        s = TrafficLightsExample.SequencerState.RedCrossing) ∧
      ((TrafficLightsExample.Display.PedestrianLights.fromSequencerState s).cross =
          TrafficLightsExample.Display.LightState.On →
        (TrafficLightsExample.Display.TrafficLights.fromSequencerState s).red =
          TrafficLightsExample.Display.LightState.On ∧
        (TrafficLightsExample.Display.TrafficLights.fromSequencerState s).amber =
          TrafficLightsExample.Display.LightState.Off ∧
        (TrafficLightsExample.Display.TrafficLights.fromSequencerState s).green =
          TrafficLightsExample.Display.LightState.Off) := by
  intro s
  cases s <;> exact ⟨by decide, by decide⟩

/-- The debug-message trimming loop always leaves strictly fewer than
`MAXIMUM_DEBUG_MESSAGES` entries. -/
theorem TrafficLightsExample.Display.trimDebugMessages_length_lt (msgs : List String) :
    (TrafficLightsExample.Display.trimDebugMessages msgs).length <
      TrafficLightsExample.MAXIMUM_DEBUG_MESSAGES := by
  induction msgs using TrafficLightsExample.Display.trimDebugMessages.induct with
  | case1 msgs h ih =>
      rw [TrafficLightsExample.Display.trimDebugMessages, dif_pos h]
      exact ih
  | case2 msgs h =>
      rw [TrafficLightsExample.Display.trimDebugMessages, dif_neg h]
      omega

/-- The debug-message trimming loop only ever removes entries from the
front: its result is a suffix (a `drop`) of the input. -/
theorem TrafficLightsExample.Display.trimDebugMessages_eq_drop (msgs : List String) :
    ∃ k, TrafficLightsExample.Display.trimDebugMessages msgs = msgs.drop k := by
  induction msgs using TrafficLightsExample.Display.trimDebugMessages.induct with
  | case1 msgs h ih =>
      obtain ⟨k, hk⟩ := ih
      refine ⟨k + 1, ?_⟩
      rw [TrafficLightsExample.Display.trimDebugMessages, dif_pos h, hk]
      have hdt : msgs.tail.drop k = msgs.drop (1 + k) := by
        rw [← List.drop_one, List.drop_drop]
      rw [hdt, Nat.add_comm]
  | case2 msgs h =>
      exact ⟨0, by rw [TrafficLightsExample.Display.trimDebugMessages, dif_neg h, List.drop_zero]⟩

/-- Claim C10: whenever the display agent's `debug_messages` list holds at
most `MAXIMUM_DEBUG_MESSAGES` (10) entries, handling a `DebugMessage`
payload preserves that bound — the handler removes oldest entries from the
front until the length is below the maximum before appending the new
timestamped entry, so the result is a suffix of the old list followed by
the new entry and its length never exceeds the maximum. -/
theorem claim_C10_debug_messages_bound
    (st : TrafficLightsExample.Display.DisplayAgentState) (now dm : String)
    (_hbound : st.debug_messages.length ≤ TrafficLightsExample.MAXIMUM_DEBUG_MESSAGES) :
    ((st.message_handler now (.DebugMessage dm)).1.debug_messages.length ≤
      TrafficLightsExample.MAXIMUM_DEBUG_MESSAGES) ∧
    ∃ k, (st.message_handler now (.DebugMessage dm)).1.debug_messages =
        st.debug_messages.drop k ++ [now ++ " " ++ dm] := by
  have h1 : (st.message_handler now (.DebugMessage dm)).1.debug_messages =
      TrafficLightsExample.Display.trimDebugMessages st.debug_messages ++
        [now ++ " " ++ dm] := rfl
  constructor
  · rw [h1, List.length_append]
    have := TrafficLightsExample.Display.trimDebugMessages_length_lt st.debug_messages
    simp only [List.length_cons, List.length_nil]
    omega
  · obtain ⟨k, hk⟩ := TrafficLightsExample.Display.trimDebugMessages_eq_drop st.debug_messages
    exact ⟨k, by rw [h1, hk]⟩

/-- Witness for C10: the freshly created display agent (one stored line)
handling a concrete debug message. -/
theorem claim_C10_debug_messages_bound_witness :
    (TrafficLightsExample.Display.DisplayAgentState.create.debug_messages.length ≤
      TrafficLightsExample.MAXIMUM_DEBUG_MESSAGES) ∧
    (((TrafficLightsExample.Display.DisplayAgentState.create.message_handler "12:00:00"
        (.DebugMessage "hello")).1.debug_messages.length ≤
        TrafficLightsExample.MAXIMUM_DEBUG_MESSAGES) ∧
     ∃ k, (TrafficLightsExample.Display.DisplayAgentState.create.message_handler "12:00:00"
        (.DebugMessage "hello")).1.debug_messages =
        TrafficLightsExample.Display.DisplayAgentState.create.debug_messages.drop k ++
          ["12:00:00" ++ " " ++ "hello"]) :=
  ⟨by decide,
    claim_C10_debug_messages_bound TrafficLightsExample.Display.DisplayAgentState.create
      "12:00:00" "hello" (by decide)⟩

/-- Claim C6: `PostmasterError` has exactly the six variants of the spec's
taxonomy, and each external failure converts to its corresponding variant:
every `TimeoutError` maps to `Timeout`, every `TryLockError` to
`TryLockFailed`, every `TrySendError` (for any payload type) to
`TrySendFailed`, and every `SpawnError` to `DelayedMessageTaskSpawnFailed`. -/
theorem claim_C6_error_taxonomy :
    (∀ e : PostHaste.PostmasterError,
      e = .AddressAlreadyTaken ∨ e = .NoRecipient ∨ e = .Timeout ∨
      e = .TryLockFailed ∨ e = .TrySendFailed ∨ e = .DelayedMessageTaskSpawnFailed) ∧
    (∀ t : PostHaste.TimeoutError, PostHaste.fromTimeoutError t = .Timeout) ∧
    (∀ t : PostHaste.TryLockError, PostHaste.fromTryLockError t = .TryLockFailed) ∧
    (∀ (T : Type) (e : PostHaste.TrySendError T),
      PostHaste.fromTrySendError e = .TrySendFailed) ∧
    (∀ s : PostHaste.SpawnError,
      PostHaste.fromSpawnError s = .DelayedMessageTaskSpawnFailed) := by
  refine ⟨fun e => ?_, fun t => rfl, fun t => rfl, fun T e => rfl, fun s => rfl⟩
  cases e <;> simp
